import Mathlib

/-!
simple-reg: configuration resolution, mailer and route wrapper.

A shallow embedding of `main.go`.

* `getConfig` merges the decoded TOML file with the command-line flags.
* `mailer` builds the closure that talks to the Mailgun client.
* `wrap` adapts a `func(string) error` to an httprouter handle.

External libraries (BurntSushi/toml, mailgun-go, httprouter, net/http) are
either parameters of the embedding or small models of the library calls the
program makes.
-/

namespace SimpleReg

/-! ## Data model -/

/-- The `Config` struct of `main.go` (lines 28-36). -/
structure Config where
  Domain : String
  APIKey : String
  PubKey : String
  SendTo : String
  Sender : String
  Subject : String
  Port : Int
  deriving DecidableEq, Repr

/-- The zero value of `Config`, what `var conf Config` declares. -/
def Config.zero : Config := ⟨"", "", "", "", "", "", 0⟩

/-- The package-level flag variables (lines 15-26), after `flag.Parse()`. -/
structure Flags where
  config : String
  domain : String
  mgAPIKey : String
  pbAPIKey : String
  sendTo : String
  sender : String
  subject : String
  port : Int
  deriving DecidableEq, Repr

/-- The values the flags hold when no argument is passed on the command line. -/
def Flags.defaults : Flags := ⟨"config.toml", "", "", "", "", "", "Registration", 24000⟩

/-- The keys of the map literal that `getConfig` ranges over (lines 82-86). -/
inductive Key where
  | domain
  | apiKey
  | pubKey
  | sendTo
  | sender
  deriving DecidableEq, Repr

/-- The map key as a string, the `k` of the range loop. -/
def Key.name : Key → String
  | .domain => "domain"
  | .apiKey => "api-key"
  | .pubKey => "pub-key"
  | .sendTo => "send-to"
  | .sender => "sender"

/-- The five keys, in the order the map literal lists them. -/
def allKeys : List Key := [.domain, .apiKey, .pubKey, .sendTo, .sender]

/-- The `f` member of the map value for key `k`: the flag's value. -/
def flagOf (fl : Flags) : Key → String
  | .domain => fl.domain
  | .apiKey => fl.mgAPIKey
  | .pubKey => fl.pbAPIKey
  | .sendTo => fl.sendTo
  | .sender => fl.sender

/-- Reading through the `cf` pointer of the map value for key `k`. -/
def Config.get (c : Config) : Key → String
  | .domain => c.Domain
  | .apiKey => c.APIKey
  | .pubKey => c.PubKey
  | .sendTo => c.SendTo
  | .sender => c.Sender

/-- Writing through the `cf` pointer of the map value for key `k`. -/
def Config.set (c : Config) (k : Key) (v : String) : Config :=
  match k with
  | .domain => { c with Domain := v }
  | .apiKey => { c with APIKey := v }
  | .pubKey => { c with PubKey := v }
  | .sendTo => { c with SendTo := v }
  | .sender => { c with Sender := v }

/-! ## getConfig -/

/-- The range loop of `getConfig` (lines 78-94) over the keys in the order
`ks` in which the Go runtime happens to visit the map. -/
def rangeLoop (fl : Flags) : List Key → Config → Except String Config
  | [], conf => .ok conf
  | k :: ks, conf =>
    if flagOf fl k = "" ∧ conf.get k = "" then
      .error ("must define a value for flag " ++ k.name)
    else if conf.get k = "" then
      rangeLoop fl ks (conf.set k (flagOf fl k))
    else
      rangeLoop fl ks conf

/-- The first statement of `getConfig` (lines 72-77): the zero `Config`, or
what `toml.DecodeFile` makes of it when a path is given. `DecodeFile which conf`
stands for the library call: the struct after decoding, or the text of the
decoder's error. -/
def loadFile (DecodeFile : String → Config → Except String Config) (which : String) :
    Except String Config :=
  if which ≠ "" then
    match DecodeFile which Config.zero with
    | .error err => .error ("failed to parse config " ++ which ++ ": " ++ err)
    | .ok conf => .ok conf
  else
    .ok Config.zero

/-- The function `getConfig` (lines 71-100). `order` is the iteration order of
the map, which Go leaves unspecified; `.error msg` is the return `nil, err`. -/
def getConfig (DecodeFile : String → Config → Except String Config) (order : List Key)
    (fl : Flags) (which : String) : Except String Config :=
  match loadFile DecodeFile which with
  | .error e => .error e
  | .ok conf0 =>
    match rangeLoop fl order conf0 with
    | .error e => .error e
    | .ok conf =>
      if fl.port ≠ 0 then .ok { conf with Port := fl.port } else .ok conf

/-- A decoder for runs without a file: it is never reached when the path is empty. -/
def noDecode : String → Config → Except String Config :=
  fun _ _ => .error "no such file"

/-- A decoder that finds the given struct in every file. -/
def decodeAs (c : Config) : String → Config → Except String Config :=
  fun _ _ => .ok c

/-! ## mailer -/

/-- A message as `mg.NewMessage(from, subject, text)` builds it, together with
the recipients added to it so far. -/
structure Message where
  from_ : String
  subject : String
  text : String
  to_ : List String
  deriving DecidableEq, Repr

/-- What the program uses of the `mailgun-go` client: whether adding a
recipient to a message fails, and whether delivering a message fails. `none`
is Go's `nil` error; `E` is the type of the error values. -/
structure Mailgun (E : Type) where
  AddRecipient : Message → String → Option E
  Send : Message → Option E

/-- The calls the closure returned by `mailer` makes to the outside, in order. -/
inductive Call (E : Type) where
  | NewMessage (from_ subject text : String)
  | AddRecipient (recipient : String)
  | Send (m : Message)
  | Printf (format : String) (arg : String) (err : Option E)

/-- The function `mailer` (lines 102-133); `to_` and `from_` are its parameters
`to` and `from`. `NewMailgun` is the library's constructor. The closure returns
the calls it made, in order, and its `error` result. A successful
`m.AddRecipient(to)` appends `to` to the message's recipients. -/
def mailer {E : Type} (NewMailgun : String → String → String → Mailgun E)
    (domain apiKey pubKey sub to_ from_ : String) : String → List (Call E) × Option E :=
  let mg := NewMailgun domain apiKey pubKey
  fun email =>
    let m : Message := ⟨"Registration <" ++ from_ ++ ">", sub, email, []⟩
    let built : List (Call E) :=
      [Call.NewMessage ("Registration <" ++ from_ ++ ">") sub email, Call.AddRecipient to_]
    match mg.AddRecipient m to_ with
    | some err =>
      (built ++ [Call.Printf "failed to add recipient %q: %v" to_ (some err)], some err)
    | none =>
      let m1 : Message := { m with to_ := m.to_ ++ [to_] }
      match mg.Send m1 with
      | some err =>
        (built ++ [Call.Send m1, Call.Printf "failed to send to recipient %q: %v" to_ (some err)],
          some err)
      | none =>
        (built ++ [Call.Send m1, Call.Printf "registered user %q OK" email none], none)

/-- The recipients passed to `AddRecipient` in a trace of calls, in order. -/
def recipientsAdded {E : Type} : List (Call E) → List String
  | [] => []
  | Call.AddRecipient r :: cs => r :: recipientsAdded cs
  | _ :: cs => recipientsAdded cs

/-- The messages passed to `Send` in a trace of calls, in order. -/
def deliveries {E : Type} : List (Call E) → List Message
  | [] => []
  | Call.Send m :: cs => m :: deliveries cs
  | _ :: cs => deliveries cs

/-- The `(from, subject, text)` triples passed to `NewMessage` in a trace of calls. -/
def messagesBuilt {E : Type} : List (Call E) → List (String × String × String)
  | [] => []
  | Call.NewMessage s j t :: cs => (s, j, t) :: messagesBuilt cs
  | _ :: cs => messagesBuilt cs

/-! ## wrap -/

/-- An httprouter `Param`: a URL parameter, key and value. -/
structure Param where
  Key : String
  Value : String
  deriving DecidableEq, Repr

/-- The method `Params.ByName` of httprouter: the value of the first parameter
whose key is `name`, the empty string when there is none. -/
def ByName : List Param → String → String
  | [], _ => ""
  | p :: ps, name => if p.Key = name then p.Value else ByName ps name

/-- The state of an `http.ResponseWriter` that the handler determines: the
status code (`none` until the header is written) and the body written so far.
Header fields are not tracked. -/
structure ResponseWriter where
  status : Option Nat
  body : String
  deriving DecidableEq, Repr

/-- The writer the server hands to a handler: nothing written yet. -/
def ResponseWriter.fresh : ResponseWriter := ⟨none, ""⟩

/-- The method `WriteHeader` of net/http: fixes the status code; a second call
changes nothing. -/
def ResponseWriter.WriteHeader (w : ResponseWriter) (code : Nat) : ResponseWriter :=
  match w.status with
  | none => { w with status := some code }
  | some _ => w

/-- The method `Write` of net/http: writes the header with status 200 when
none was written, then appends to the body. -/
def ResponseWriter.Write (w : ResponseWriter) (data : String) : ResponseWriter :=
  let w1 := w.WriteHeader 200
  { w1 with body := w1.body ++ data }

/-- The function `http.Error` of net/http: `w.WriteHeader(code)` followed by
`fmt.Fprintln(w, error)`, which writes the text and a newline. -/
def httpError (w : ResponseWriter) (error : String) (code : Nat) : ResponseWriter :=
  (w.WriteHeader code).Write (error ++ "\n")

/-- The function `wrap` (lines 61-69). `errText` is the `Error()` method of the
error values; the request argument, which the handler never reads, is left out. -/
def wrap {E : Type} (errText : E → String) (f : String → Option E) (key : String) :
    ResponseWriter → List Param → ResponseWriter :=
  fun w ps =>
    match f (ByName ps key) with
    | some err => httpError w (errText err) 500
    | none => w.WriteHeader 200

/-! ## Concrete inputs for the worked runs -/

/-- A client whose `AddRecipient` always fails and whose `Send` would succeed. -/
def rejectingMailgun : String → String → String → Mailgun String :=
  fun _ _ _ => ⟨fun _ _ => some "recipient limit exceeded", fun _ => none⟩

/-- A client whose `AddRecipient` succeeds and whose `Send` always fails. -/
def undeliveringMailgun : String → String → String → Mailgun String :=
  fun _ _ _ => ⟨fun _ _ => none, fun _ => some "connection refused"⟩

/-- A client whose calls all succeed. -/
def acceptingMailgun : String → String → String → Mailgun String :=
  fun _ _ _ => ⟨fun _ _ => none, fun _ => none⟩

/-- A decoded file that sets everything but the sender, with port 8000. -/
def fileExample : Config := ⟨"a.com", "key", "pub", "to@a.com", "", "Hello", 8000⟩

/-- Flags that set the domain, the sender and the port 9000. -/
def flagsExample : Flags :=
  ⟨"config.toml", "b.com", "", "", "", "me@b.com", "Registration", 9000⟩

/-- The flags of `flagsExample` with the port flag set to 0. -/
def flagsPortZero : Flags :=
  ⟨"config.toml", "b.com", "", "", "", "me@b.com", "Registration", 0⟩

/-- A send function that fails on one address alone. -/
def failOnAlice : String → Option String :=
  fun s => if s = "alice@example.com" then some "boom" else none

/-! ## Basic facts about the accessors -/

theorem Config.get_set (c : Config) (k k1 : Key) (v : String) :
    (c.set k v).get k1 = if k1 = k then v else c.get k1 := by
  cases k <;> cases k1 <;> simp [Config.set, Config.get]

theorem Config.subject_set (c : Config) (k : Key) (v : String) :
    (c.set k v).Subject = c.Subject := by
  cases k <;> rfl

theorem Config.port_set (c : Config) (k : Key) (v : String) :
    (c.set k v).Port = c.Port := by
  cases k <;> rfl

theorem mem_allKeys (k : Key) : k ∈ allKeys := by
  cases k <;> simp [allKeys]

theorem mem_of_perm_allKeys {order : List Key} (h : order.Perm allKeys) (k : Key) :
    k ∈ order :=
  h.mem_iff.mpr (mem_allKeys k)

/-! ## The range loop -/

/-- A loop that ends well leaves subject and port alone, and each mandatory
field holds the flag where the loop visited an empty field, its old value
elsewhere. -/
theorem rangeLoop_ok (fl : Flags) (ks : List Key) :
    ∀ (conf c : Config), rangeLoop fl ks conf = .ok c →
      c.Subject = conf.Subject ∧ c.Port = conf.Port ∧
      ∀ k, c.get k = if k ∈ ks ∧ conf.get k = "" then flagOf fl k else conf.get k := by
  induction ks with
  | nil =>
    intro conf c h
    simp only [rangeLoop, Except.ok.injEq] at h
    subst h
    simp
  | cons k0 ks ih =>
    intro conf c h
    simp only [rangeLoop] at h
    split_ifs at h with h1 h2
    · obtain ⟨hs, hp, hk⟩ := ih _ _ h
      refine ⟨by rw [hs, Config.subject_set], by rw [hp, Config.port_set], ?_⟩
      intro k
      rw [hk k, Config.get_set]
      have hf : flagOf fl k0 ≠ "" := fun hf => h1 ⟨hf, h2⟩
      by_cases hkk : k = k0
      · subst hkk
        simp [h2, hf]
      · simp [hkk]
    · obtain ⟨hs, hp, hk⟩ := ih _ _ h
      refine ⟨hs, hp, ?_⟩
      intro k
      rw [hk k]
      by_cases hkk : k = k0
      · subst hkk
        simp [h2]
      · simp [hkk]

/-- The loop ends well when every key it visits has a value in the flag or
in the struct. -/
theorem rangeLoop_total (fl : Flags) (ks : List Key) :
    ∀ (conf : Config), (∀ k ∈ ks, flagOf fl k ≠ "" ∨ conf.get k ≠ "") →
      ∃ c, rangeLoop fl ks conf = .ok c := by
  induction ks with
  | nil =>
    intro conf _
    exact ⟨conf, rfl⟩
  | cons k0 ks ih =>
    intro conf h
    have h0 := h k0 (List.mem_cons_self _ _)
    simp only [rangeLoop]
    split_ifs with h1 h2
    · exact absurd h1 (by rcases h0 with h0 | h0 <;> simp [h0])
    · apply ih
      intro k hk
      rcases h k (List.mem_cons_of_mem _ hk) with h3 | h3
      · exact Or.inl h3
      · right
        rw [Config.get_set]
        split_ifs with h4
        · rcases h0 with h0 | h0
          · exact h0
          · exact absurd h2 h0
        · exact h3
    · exact ih conf (fun k hk => h k (List.mem_cons_of_mem _ hk))

/-- The loop stops with the error for `k` when `k` is visited, has no value in
either source, and every other key has one. -/
theorem rangeLoop_missing (fl : Flags) (k : Key) (ks : List Key) :
    ∀ (conf : Config), k ∈ ks → flagOf fl k = "" → conf.get k = "" →
      (∀ k1, k1 ≠ k → flagOf fl k1 ≠ "" ∨ conf.get k1 ≠ "") →
      rangeLoop fl ks conf = .error ("must define a value for flag " ++ k.name) := by
  induction ks with
  | nil =>
    intro conf hk
    simp at hk
  | cons k0 ks ih =>
    intro conf hk hf hc hothers
    simp only [rangeLoop]
    by_cases hkk : k0 = k
    · subst hkk
      simp [hf, hc]
    · have hmem : k ∈ ks := by
        rcases List.mem_cons.mp hk with h | h
        · exact absurd h.symm hkk
        · exact h
      have h0 := hothers k0 hkk
      split_ifs with h1 h2
      · exact absurd h1 (by rcases h0 with h0 | h0 <;> simp [h0])
      · apply ih _ hmem hf
        · rw [Config.get_set, if_neg (Ne.symm hkk)]
          exact hc
        · intro k1 hk1
          rcases hothers k1 hk1 with h3 | h3
          · exact Or.inl h3
          · right
            rw [Config.get_set]
            split_ifs with h4
            · rcases h0 with h0 | h0
              · exact h0
              · exact absurd h2 h0
            · exact h3
      · exact ih conf hmem hf hc hothers

/-! ## getConfig: helper facts -/

/-- With an empty path no file is read: the loop starts from the zero struct. -/
theorem loadFile_empty (DecodeFile : String → Config → Except String Config) :
    loadFile DecodeFile "" = .ok Config.zero := by
  simp [loadFile]

/-- A successful `getConfig` went through a successful load and a successful
loop, and differs from the loop's result in the port alone. -/
theorem getConfig_ok_inv (DecodeFile : String → Config → Except String Config)
    (order : List Key) (fl : Flags) (which : String) (c : Config)
    (h : getConfig DecodeFile order fl which = .ok c) :
    ∃ conf0 conf, loadFile DecodeFile which = .ok conf0 ∧
      rangeLoop fl order conf0 = .ok conf ∧
      c = (if fl.port ≠ 0 then { conf with Port := fl.port } else conf) := by
  unfold getConfig at h
  cases h0 : loadFile DecodeFile which with
  | error e => simp [h0] at h
  | ok conf0 =>
    cases h1 : rangeLoop fl order conf0 with
    | error e => simp [h0, h1] at h
    | ok conf =>
      refine ⟨conf0, conf, rfl, h1, ?_⟩
      simp only [h0, h1] at h
      by_cases hp : fl.port ≠ 0
      · rw [if_pos hp] at h ⊢
        exact (Except.ok.inj h).symm
      · rw [if_neg hp] at h ⊢
        exact (Except.ok.inj h).symm

/-- The result of `getConfig` in terms of its two stages. -/
theorem getConfig_of_stages (DecodeFile : String → Config → Except String Config)
    (order : List Key) (fl : Flags) (which : String) (conf0 conf : Config)
    (h0 : loadFile DecodeFile which = .ok conf0) (h1 : rangeLoop fl order conf0 = .ok conf) :
    getConfig DecodeFile order fl which =
      .ok (if fl.port ≠ 0 then { conf with Port := fl.port } else conf) := by
  unfold getConfig
  simp only [h0, h1]
  split_ifs <;> rfl

/-- The subject of a successful `getConfig` is the subject loaded from the
file: neither the loop nor the port assignment writes it. -/
theorem getConfig_subject_from_file (DecodeFile : String → Config → Except String Config)
    (order : List Key) (fl : Flags) (which : String) (fileConf c : Config)
    (hfile : loadFile DecodeFile which = .ok fileConf)
    (h : getConfig DecodeFile order fl which = .ok c) :
    c.Subject = fileConf.Subject := by
  obtain ⟨conf0, conf, h0, h1, hc⟩ := getConfig_ok_inv DecodeFile order fl which c h
  rw [hfile] at h0
  obtain rfl := Except.ok.inj h0
  obtain ⟨hs, _, _⟩ := rangeLoop_ok fl order fileConf conf h1
  rw [hc, ← hs]
  split_ifs <;> rfl

/-! ## Claims about getConfig -/

/-- C1, as the code has it: when the five mandatory flags are non-empty and no
file is given (empty path), `getConfig` succeeds for every iteration order of
the map, the five mandatory fields of the result equal the flags, and the port
equals the port flag when that is non-zero and is 0 otherwise. -/
theorem getConfig_flags_only (DecodeFile : String → Config → Except String Config)
    (order : List Key) (fl : Flags) (horder : order.Perm allKeys)
    (hd : fl.domain ≠ "") (ha : fl.mgAPIKey ≠ "") (hp : fl.pbAPIKey ≠ "")
    (ht : fl.sendTo ≠ "") (hs : fl.sender ≠ "") :
    ∃ c, getConfig DecodeFile order fl "" = .ok c ∧
      c.Domain = fl.domain ∧ c.APIKey = fl.mgAPIKey ∧ c.PubKey = fl.pbAPIKey ∧
      c.SendTo = fl.sendTo ∧ c.Sender = fl.sender ∧
      c.Port = (if fl.port ≠ 0 then fl.port else 0) := by
  have hall : ∀ k, flagOf fl k ≠ "" := by
    intro k
    cases k <;> assumption
  obtain ⟨conf, hconf⟩ := rangeLoop_total fl order Config.zero (fun k _ => Or.inl (hall k))
  obtain ⟨_, hport, hget⟩ := rangeLoop_ok fl order Config.zero conf hconf
  have hk : ∀ k, conf.get k = flagOf fl k := by
    intro k
    rw [hget k]
    have : Config.zero.get k = "" := by cases k <;> rfl
    simp [this, mem_of_perm_allKeys horder k]
  refine ⟨_, getConfig_of_stages DecodeFile order fl "" Config.zero conf
    (loadFile_empty DecodeFile) hconf, ?_⟩
  have h1 := hk .domain
  have h2 := hk .apiKey
  have h3 := hk .pubKey
  have h4 := hk .sendTo
  have h5 := hk .sender
  simp only [Config.get, flagOf] at h1 h2 h3 h4 h5
  have hz : conf.Port = 0 := by rw [hport]; rfl
  by_cases h0 : fl.port ≠ 0
  · rw [if_pos h0, if_pos h0]
    exact ⟨h1, h2, h3, h4, h5, rfl⟩
  · rw [if_neg h0, if_neg h0]
    exact ⟨h1, h2, h3, h4, h5, hz⟩

/-- C1, concrete run of the amended statement: five non-empty flags, the port
flag left at 24000, no file. -/
theorem getConfig_flags_only_witness :
    ∃ c, getConfig noDecode allKeys ⟨"", "d.org", "key", "pub", "to@d.org", "me@d.org",
        "Registration", 24000⟩ "" = .ok c ∧
      c.Domain = "d.org" ∧ c.APIKey = "key" ∧ c.PubKey = "pub" ∧
      c.SendTo = "to@d.org" ∧ c.Sender = "me@d.org" ∧
      c.Port = (if (24000 : Int) ≠ 0 then 24000 else 0) :=
  getConfig_flags_only noDecode allKeys
    ⟨"", "d.org", "key", "pub", "to@d.org", "me@d.org", "Registration", 24000⟩
    (List.Perm.refl _) (by decide) (by decide) (by decide) (by decide) (by decide)

/-- C1 fails as stated: with five non-empty flags, no file and the port flag
set to 0, `getConfig` succeeds with port 0, not 24000. -/
theorem getConfig_flags_only_port_zero :
    getConfig noDecode allKeys ⟨"", "d.org", "key", "pub", "to@d.org", "me@d.org",
        "Registration", 0⟩ "" = .ok ⟨"d.org", "key", "pub", "to@d.org", "me@d.org", "", 0⟩ ∧
      (⟨"d.org", "key", "pub", "to@d.org", "me@d.org", "", 0⟩ : Config).Port ≠ 24000 :=
  ⟨rfl, by decide⟩

/-- C2: when the file was loaded (or none was given) and exactly one mandatory
key `k` is empty in both the flag and the loaded struct, every other key being
non-empty in one of the two, `getConfig` returns the error that names `k`
and no struct, for every iteration order of the map; the message names no other
key. -/
theorem getConfig_missing_field (DecodeFile : String → Config → Except String Config)
    (order : List Key) (fl : Flags) (which : String) (fileConf : Config) (k : Key)
    (horder : order.Perm allKeys)
    (hfile : loadFile DecodeFile which = .ok fileConf)
    (hflag : flagOf fl k = "") (hconf : fileConf.get k = "")
    (hothers : ∀ k1, k1 ≠ k → flagOf fl k1 ≠ "" ∨ fileConf.get k1 ≠ "") :
    getConfig DecodeFile order fl which = .error ("must define a value for flag " ++ k.name) ∧
      ∀ k1, k1 ≠ k →
        "must define a value for flag " ++ k.name ≠ "must define a value for flag " ++ k1.name := by
  constructor
  · unfold getConfig
    rw [hfile]
    simp only
    rw [rangeLoop_missing fl k order fileConf (mem_of_perm_allKeys horder k) hflag hconf hothers]
  · intro k1 hk1
    cases k <;> cases k1 <;> first | exact absurd rfl hk1 | decide

/-- C2, concrete run: the file supplies domain and api-key, the flags supply
pub-key and sender, nobody supplies send-to. -/
theorem getConfig_missing_field_witness :
    getConfig (decodeAs ⟨"a.com", "key", "", "", "", "Hello", 8000⟩) allKeys
        ⟨"config.toml", "", "", "pub", "", "me@a.com", "Registration", 24000⟩ "config.toml"
      = .error ("must define a value for flag " ++ Key.sendTo.name) ∧
      ∀ k1, k1 ≠ Key.sendTo →
        "must define a value for flag " ++ Key.sendTo.name
          ≠ "must define a value for flag " ++ k1.name :=
  getConfig_missing_field (decodeAs ⟨"a.com", "key", "", "", "", "Hello", 8000⟩) allKeys
    ⟨"config.toml", "", "", "pub", "", "me@a.com", "Registration", 24000⟩ "config.toml"
    ⟨"a.com", "key", "", "", "", "Hello", 8000⟩ Key.sendTo (List.Perm.refl _) rfl rfl rfl
    (by
      intro k1 hk1
      cases k1
      · exact Or.inr (by decide)
      · exact Or.inr (by decide)
      · exact Or.inl (by decide)
      · exact absurd rfl hk1
      · exact Or.inl (by decide))

/-- C3: after a successful `getConfig`, each of the five mandatory fields holds
the value loaded from the file when that is non-empty, and the flag's value when
the loaded value is empty; so the file wins when both are non-empty. -/
theorem getConfig_file_precedence (DecodeFile : String → Config → Except String Config)
    (order : List Key) (fl : Flags) (which : String) (fileConf c : Config)
    (horder : order.Perm allKeys)
    (hfile : loadFile DecodeFile which = .ok fileConf)
    (h : getConfig DecodeFile order fl which = .ok c) (k : Key) :
    c.get k = if fileConf.get k ≠ "" then fileConf.get k else flagOf fl k := by
  obtain ⟨conf0, conf, h0, h1, hc⟩ := getConfig_ok_inv DecodeFile order fl which c h
  rw [hfile] at h0
  obtain rfl := Except.ok.inj h0
  obtain ⟨_, _, hget⟩ := rangeLoop_ok fl order fileConf conf h1
  have hck : c.get k = conf.get k := by
    rw [hc]
    split_ifs <;> cases k <;> rfl
  rw [hck, hget k]
  by_cases hk : fileConf.get k = ""
  · simp [hk, mem_of_perm_allKeys horder k]
  · simp [hk]

/-- C3, concrete run: the file says domain `a.com`, the flag says `b.com`, and
the resolved domain is `a.com`; the file has no sender and the flag fills it. -/
theorem getConfig_file_precedence_witness :
    getConfig (decodeAs fileExample) allKeys flagsExample "config.toml"
        = .ok ⟨"a.com", "key", "pub", "to@a.com", "me@b.com", "Hello", 9000⟩ ∧
      (⟨"a.com", "key", "pub", "to@a.com", "me@b.com", "Hello", 9000⟩ : Config).get Key.domain
        = "a.com" ∧
      (⟨"a.com", "key", "pub", "to@a.com", "me@b.com", "Hello", 9000⟩ : Config).get Key.sender
        = "me@b.com" :=
  ⟨rfl,
    (getConfig_file_precedence (decodeAs fileExample) allKeys flagsExample "config.toml"
      fileExample ⟨"a.com", "key", "pub", "to@a.com", "me@b.com", "Hello", 9000⟩
      (List.Perm.refl _) rfl rfl Key.domain).trans (by decide),
    (getConfig_file_precedence (decodeAs fileExample) allKeys flagsExample "config.toml"
      fileExample ⟨"a.com", "key", "pub", "to@a.com", "me@b.com", "Hello", 9000⟩
      (List.Perm.refl _) rfl rfl Key.sender).trans (by decide)⟩

/-- C4: after a successful `getConfig` with a non-zero port flag, the resolved
port is the flag's value, whatever port the file supplied. -/
theorem getConfig_port_override (DecodeFile : String → Config → Except String Config)
    (order : List Key) (fl : Flags) (which : String) (c : Config)
    (h : getConfig DecodeFile order fl which = .ok c) (hport : fl.port ≠ 0) :
    c.Port = fl.port := by
  obtain ⟨conf0, conf, _, _, hc⟩ := getConfig_ok_inv DecodeFile order fl which c h
  rw [hc, if_pos hport]

/-- C4, concrete run: the file says port 8000, the flag says 9000, the resolved
port is 9000. -/
theorem getConfig_port_override_witness :
    fileExample.Port = 8000 ∧
      getConfig (decodeAs fileExample) allKeys flagsExample "config.toml"
        = .ok ⟨"a.com", "key", "pub", "to@a.com", "me@b.com", "Hello", 9000⟩ ∧
      (⟨"a.com", "key", "pub", "to@a.com", "me@b.com", "Hello", 9000⟩ : Config).Port = 9000 :=
  ⟨rfl, rfl,
    getConfig_port_override (decodeAs fileExample) allKeys flagsExample "config.toml"
      ⟨"a.com", "key", "pub", "to@a.com", "me@b.com", "Hello", 9000⟩ rfl (by decide)⟩

/-- C5 at the failing input: no file, the five mandatory flags set, the subject
flag at its default `Registration`. `getConfig` succeeds and the subject of the
result is empty: the subject flag is never read. -/
theorem getConfig_subject_not_defaulted :
    getConfig noDecode allKeys
        ⟨"", "d.org", "key", "pub", "to@d.org", "me@d.org", "Registration", 24000⟩ ""
      = .ok ⟨"d.org", "key", "pub", "to@d.org", "me@d.org", "", 24000⟩ ∧
      (⟨"d.org", "key", "pub", "to@d.org", "me@d.org", "", 24000⟩ : Config).Subject = "" :=
  ⟨rfl, rfl⟩

/-- C6, as the code has it: the port of a successful `getConfig` is the port
flag when that is non-zero and the port loaded from the file otherwise (0 when
there is no file or the file sets none). So it is 24000 when the flag is left at
its default 24000, and positive when the flag is positive. -/
theorem getConfig_port_resolved (DecodeFile : String → Config → Except String Config)
    (order : List Key) (fl : Flags) (which : String) (fileConf c : Config)
    (hfile : loadFile DecodeFile which = .ok fileConf)
    (h : getConfig DecodeFile order fl which = .ok c) :
    c.Port = (if fl.port ≠ 0 then fl.port else fileConf.Port) ∧
      (fl.port = 24000 → c.Port = 24000) ∧ (0 < fl.port → 0 < c.Port) := by
  obtain ⟨conf0, conf, h0, h1, hc⟩ := getConfig_ok_inv DecodeFile order fl which c h
  rw [hfile] at h0
  obtain rfl := Except.ok.inj h0
  obtain ⟨_, hp, _⟩ := rangeLoop_ok fl order fileConf conf h1
  have hmain : c.Port = (if fl.port ≠ 0 then fl.port else fileConf.Port) := by
    rw [hc]
    by_cases h0 : fl.port ≠ 0
    · rw [if_pos h0, if_pos h0]
    · rw [if_neg h0, if_neg h0, hp]
  refine ⟨hmain, ?_, ?_⟩
  · intro h24
    rw [hmain, h24]
    rfl
  · intro hpos
    rw [hmain, if_pos (ne_of_gt hpos)]
    exact hpos

/-- C6, concrete run: port flag 0, file port 8000, resolved port 8000. -/
theorem getConfig_port_resolved_witness :
    getConfig (decodeAs fileExample) allKeys flagsPortZero "config.toml"
        = .ok ⟨"a.com", "key", "pub", "to@a.com", "me@b.com", "Hello", 8000⟩ ∧
      (⟨"a.com", "key", "pub", "to@a.com", "me@b.com", "Hello", 8000⟩ : Config).Port = 8000 :=
  ⟨rfl,
    (getConfig_port_resolved (decodeAs fileExample) allKeys flagsPortZero "config.toml"
      fileExample ⟨"a.com", "key", "pub", "to@a.com", "me@b.com", "Hello", 8000⟩
      rfl rfl).1.trans (by decide)⟩

/-- C6 fails as stated: with the port flag 0 and a file that sets no port,
`getConfig` succeeds with port 0, which is neither positive nor 24000. -/
theorem getConfig_port_zero_from_file :
    getConfig (decodeAs ⟨"a.com", "key", "pub", "to@a.com", "me@a.com", "Hello", 0⟩) allKeys
        ⟨"config.toml", "", "", "", "", "", "Registration", 0⟩ "config.toml"
      = .ok ⟨"a.com", "key", "pub", "to@a.com", "me@a.com", "Hello", 0⟩ ∧
      (⟨"a.com", "key", "pub", "to@a.com", "me@a.com", "Hello", 0⟩ : Config).Port ≤ 0 ∧
      (⟨"a.com", "key", "pub", "to@a.com", "me@a.com", "Hello", 0⟩ : Config).Port ≠ 24000 :=
  ⟨rfl, by decide, by decide⟩

/-! ## Claims about wrap -/

/-- C7, as the code has it: for every `f` and every parameter list whose
`email` parameter is `e`, the handle `wrap(f, "email")`, run on a fresh writer,
answers by the result of `f(e)`: status 200 and an empty body when it is nil,
status 500 and the error's message followed by a newline when it is an error,
whatever the error. -/
theorem wrap_response {E : Type} (errText : E → String) (f : String → Option E)
    (ps : List Param) (e : String) (he : ByName ps "email" = e) :
    (f e = none → wrap errText f "email" ResponseWriter.fresh ps = ⟨some 200, ""⟩) ∧
      (∀ err, f e = some err →
        wrap errText f "email" ResponseWriter.fresh ps = ⟨some 500, errText err ++ "\n"⟩) := by
  subst he
  constructor
  · intro h
    simp [wrap, h, ResponseWriter.WriteHeader, ResponseWriter.fresh]
  · intro err h
    simp [wrap, h, httpError, ResponseWriter.Write, ResponseWriter.WriteHeader,
      ResponseWriter.fresh]

/-- C7, concrete run: the send function fails on `alice@example.com` and
succeeds on `bob@example.com`. -/
theorem wrap_response_witness :
    wrap id failOnAlice "email" ResponseWriter.fresh [⟨"id", "7"⟩, ⟨"email", "bob@example.com"⟩]
        = ⟨some 200, ""⟩ ∧
      wrap id failOnAlice "email" ResponseWriter.fresh
          [⟨"id", "7"⟩, ⟨"email", "alice@example.com"⟩]
        = ⟨some 500, id "boom" ++ "\n"⟩ :=
  ⟨(wrap_response id failOnAlice [⟨"id", "7"⟩, ⟨"email", "bob@example.com"⟩]
      "bob@example.com" (by decide)).1 (by decide),
    (wrap_response id failOnAlice [⟨"id", "7"⟩, ⟨"email", "alice@example.com"⟩]
      "alice@example.com" (by decide)).2 "boom" (by decide)⟩

/-- C7 fails as stated: when `f` returns an error whose message is `boom`, the
body of the response is `boom` and a newline, not `boom`. -/
theorem wrap_error_body_newline :
    wrap id (fun _ => some "boom") "email" ResponseWriter.fresh [⟨"email", "alice@example.com"⟩]
      = ⟨some 500, "boom\n"⟩ ∧
    (wrap id (fun _ => some "boom") "email" ResponseWriter.fresh
      [⟨"email", "alice@example.com"⟩]).body ≠ "boom" :=
  ⟨by decide, by decide⟩

/-! ## Claims about mailer -/

/-- C8: when the client's `AddRecipient` call on the message fails with `err`,
the closure returns `err` and makes no `Send` call, for every email string. -/
theorem mailer_recipient_rejected {E : Type}
    (NewMailgun : String → String → String → Mailgun E)
    (domain apiKey pubKey sub to_ from_ email : String) (err : E)
    (hadd : (NewMailgun domain apiKey pubKey).AddRecipient
      ⟨"Registration <" ++ from_ ++ ">", sub, email, []⟩ to_ = some err) :
    (mailer NewMailgun domain apiKey pubKey sub to_ from_ email).2 = some err ∧
      deliveries (mailer NewMailgun domain apiKey pubKey sub to_ from_ email).1 = [] := by
  constructor <;> simp [mailer, hadd, deliveries]

/-- C8, concrete run with a client that rejects every recipient. -/
theorem mailer_recipient_rejected_witness :
    (mailer rejectingMailgun "d.org" "key" "pub" "Hello" "to@d.org" "me@d.org"
        "user@example.com").2 = some "recipient limit exceeded" ∧
      deliveries (mailer rejectingMailgun "d.org" "key" "pub" "Hello" "to@d.org" "me@d.org"
        "user@example.com").1 = [] :=
  mailer_recipient_rejected rejectingMailgun "d.org" "key" "pub" "Hello" "to@d.org" "me@d.org"
    "user@example.com" "recipient limit exceeded" rfl

/-- C9: for every client, every configuration and every email string `e`, the
closure builds exactly one message, with from `Registration <sender>`, the
configured subject and body `e`; the only recipient it adds is the configured
`to`; and a message it hands to `Send` is that message with that one recipient. -/
theorem mailer_message {E : Type} (NewMailgun : String → String → String → Mailgun E)
    (domain apiKey pubKey sub to_ from_ email : String) :
    messagesBuilt (mailer NewMailgun domain apiKey pubKey sub to_ from_ email).1
        = [("Registration <" ++ from_ ++ ">", sub, email)] ∧
      recipientsAdded (mailer NewMailgun domain apiKey pubKey sub to_ from_ email).1 = [to_] ∧
      ∀ m ∈ deliveries (mailer NewMailgun domain apiKey pubKey sub to_ from_ email).1,
        m = ⟨"Registration <" ++ from_ ++ ">", sub, email, [to_]⟩ := by
  simp only [mailer]
  cases (NewMailgun domain apiKey pubKey).AddRecipient
      ⟨"Registration <" ++ from_ ++ ">", sub, email, []⟩ to_ with
  | some err => simp [messagesBuilt, recipientsAdded, deliveries]
  | none =>
    cases (NewMailgun domain apiKey pubKey).Send
        ⟨"Registration <" ++ from_ ++ ">", sub, email, [] ++ [to_]⟩ with
    | some err => simp [messagesBuilt, recipientsAdded, deliveries]
    | none => simp [messagesBuilt, recipientsAdded, deliveries]

/-- C10: when the client's `AddRecipient` call succeeds, the closure makes
exactly one `Send` call, on the message with the one recipient, and exactly one
`AddRecipient` call, and its result is the result of that `Send` call: nil when
it succeeds, its error when it fails. -/
theorem mailer_delivery {E : Type} (NewMailgun : String → String → String → Mailgun E)
    (domain apiKey pubKey sub to_ from_ email : String)
    (hadd : (NewMailgun domain apiKey pubKey).AddRecipient
      ⟨"Registration <" ++ from_ ++ ">", sub, email, []⟩ to_ = none) :
    deliveries (mailer NewMailgun domain apiKey pubKey sub to_ from_ email).1
        = [⟨"Registration <" ++ from_ ++ ">", sub, email, [to_]⟩] ∧
      recipientsAdded (mailer NewMailgun domain apiKey pubKey sub to_ from_ email).1 = [to_] ∧
      (mailer NewMailgun domain apiKey pubKey sub to_ from_ email).2
        = (NewMailgun domain apiKey pubKey).Send
            ⟨"Registration <" ++ from_ ++ ">", sub, email, [to_]⟩ := by
  simp only [mailer, hadd]
  cases hs : (NewMailgun domain apiKey pubKey).Send
      ⟨"Registration <" ++ from_ ++ ">", sub, email, [] ++ [to_]⟩ with
  | some err =>
    simp only [List.nil_append] at hs
    simp [recipientsAdded, deliveries, hs]
  | none =>
    simp only [List.nil_append] at hs
    simp [recipientsAdded, deliveries, hs]

/-- C10, concrete run with a client that accepts the recipient and fails to
deliver: one `Send`, one `AddRecipient`, and the delivery error comes back. -/
theorem mailer_delivery_witness :
    deliveries (mailer undeliveringMailgun "d.org" "key" "pub" "Hello" "to@d.org" "me@d.org"
        "user@example.com").1
        = [⟨"Registration <" ++ "me@d.org" ++ ">", "Hello", "user@example.com", ["to@d.org"]⟩] ∧
      recipientsAdded (mailer undeliveringMailgun "d.org" "key" "pub" "Hello" "to@d.org"
        "me@d.org" "user@example.com").1 = ["to@d.org"] ∧
      (mailer undeliveringMailgun "d.org" "key" "pub" "Hello" "to@d.org" "me@d.org"
        "user@example.com").2
        = (undeliveringMailgun "d.org" "key" "pub").Send
            ⟨"Registration <" ++ "me@d.org" ++ ">", "Hello", "user@example.com", ["to@d.org"]⟩ :=
  mailer_delivery undeliveringMailgun "d.org" "key" "pub" "Hello" "to@d.org" "me@d.org"
    "user@example.com" rfl

end SimpleReg
